import Mathlib

/-!
Verification development for the cel-interpreter repository.

The embedding follows the three live modules of the repository:
  * the lexer (`lexer` and its recognizer functions),
  * the recursive-descent parser (`parser` / `parseExpr` / ... / `parseMapInits`),
  * the tree-walking evaluator (`interpreter` / `evalExpr` / ... / `evalIdent`)
    together with the value-equality helpers (`valuesEqual`, `listValuesEqual`,
    `mapValuesEqual`, `valuesLessThan`, ...) and the builtin dispatcher.

Modelling conventions for the JavaScript/TypeScript source:
  * JavaScript numbers are modelled by `JSNum`: an exact rational together with
    the IEEE special values Infinity, -Infinity and NaN.  All arithmetic the
    verified theorems exercise is small-integer arithmetic, on which IEEE
    doubles are exact, so the rational model agrees with the source there.
  * JavaScript objects have reference identity, which the source observes via
    `===`.  Every `new SomeValue(...)` in the source is modelled as drawing a
    fresh identifier from an allocation counter threaded through evaluation;
    `===` on two such objects is identifier equality, and `===` on primitive
    fields is value equality.
  * The JavaScript value `undefined` (which leaks out of out-of-range array
    indexing and missing-property reads in the source) is the `Value.jsUndefined`
    constructor; reading a property of `undefined` is the `EvalErr.jsTypeError`
    outcome.
  * `throw new Error(msg)` is `EvalErr.jsError` carrying the static part of the
    message.
  * The source contains reachable non-termination (the parser's `parseMember`
    recurses on an unchanged token list, the lexer's string/comment scanners
    loop forever on unterminated input).  Recursions that can diverge take a
    fuel parameter and report fuel exhaustion through a dedicated constructor,
    distinct from every genuine outcome of the source.
-/

namespace Cel

/-- Exact rational with positive denominator in lowest terms, built so that
all arithmetic reduces inside the Lean kernel.  (Mathlib's `Rat` operations
are irreducible, which would block `rfl`/`decide` on concrete runs.) -/
structure JQ where
  num : Int
  den : Nat
deriving Repr, DecidableEq

namespace JQ

/-- Normalized fraction `n / d` (callers keep `d ≠ 0`). -/
def mk' (n d : Int) : JQ :=
  let s : Int := if d < 0 then -1 else 1
  let n1 := s * n
  let d1 := (s * d).toNat
  let g := Nat.gcd n1.natAbs d1
  if g == 0 then ⟨0, 1⟩ else ⟨n1.tdiv (g : Int), d1 / g⟩

def ofInt (n : Int) : JQ := ⟨n, 1⟩

def add (a b : JQ) : JQ := mk' (a.num * (b.den : Int) + b.num * (a.den : Int)) ((a.den : Int) * (b.den : Int))

def neg (a : JQ) : JQ := ⟨-a.num, a.den⟩

def sub (a b : JQ) : JQ := add a (neg b)

def mul (a b : JQ) : JQ := mk' (a.num * b.num) ((a.den : Int) * (b.den : Int))

/-- Exact quotient (callers keep `b ≠ 0`). -/
def div (a b : JQ) : JQ := mk' (a.num * (b.den : Int)) ((a.den : Int) * b.num)

def isZero (a : JQ) : Bool := a.num == 0

def isPos (a : JQ) : Bool := 0 < a.num

def isNeg (a : JQ) : Bool := a.num < 0

def lt (a b : JQ) : Bool := a.num * (b.den : Int) < b.num * (a.den : Int)

/-- Truncation toward zero. -/
def trunc (a : JQ) : Int := a.num.tdiv (a.den : Int)

end JQ

/-- JavaScript number: exact rational plus the IEEE special values. -/
inductive JSNum where
  | num (q : JQ)
  | posInf
  | negInf
  | nan
deriving Repr, DecidableEq

namespace JSNum

/-- JavaScript `+` on numbers. -/
def add : JSNum → JSNum → JSNum
  | num a, num b => num (JQ.add a b)
  | nan, _ => nan
  | _, nan => nan
  | posInf, negInf => nan
  | negInf, posInf => nan
  | posInf, _ => posInf
  | _, posInf => posInf
  | negInf, _ => negInf
  | _, negInf => negInf

/-- JavaScript unary `-` on numbers. -/
def neg : JSNum → JSNum
  | num a => num (JQ.neg a)
  | posInf => negInf
  | negInf => posInf
  | nan => nan

/-- JavaScript binary `-` on numbers. -/
def sub (a b : JSNum) : JSNum := add a (neg b)

/-- JavaScript `*` on numbers (signs of infinite products follow IEEE). -/
def mul : JSNum → JSNum → JSNum
  | num a, num b => num (JQ.mul a b)
  | nan, _ => nan
  | _, nan => nan
  | posInf, posInf => posInf
  | posInf, negInf => negInf
  | negInf, posInf => negInf
  | negInf, negInf => posInf
  | posInf, num b => if b.isPos then posInf else if b.isNeg then negInf else nan
  | num a, posInf => if a.isPos then posInf else if a.isNeg then negInf else nan
  | negInf, num b => if b.isPos then negInf else if b.isNeg then posInf else nan
  | num a, negInf => if a.isPos then negInf else if a.isNeg then posInf else nan

/-- JavaScript `/` on numbers; division by zero produces signed infinity or
NaN, never an error.  Finite quotients are exact rationals (exact in IEEE on
the integer cases the theorems exercise). -/
def div : JSNum → JSNum → JSNum
  | num a, num b =>
      if b.isZero then
        if a.isPos then posInf else if a.isNeg then negInf else nan
      else num (JQ.div a b)
  | nan, _ => nan
  | _, nan => nan
  | posInf, posInf => nan
  | posInf, negInf => nan
  | negInf, posInf => nan
  | negInf, negInf => nan
  | posInf, num b => if b.isNeg then negInf else posInf
  | negInf, num b => if b.isNeg then posInf else negInf
  | num _, posInf => num (JQ.ofInt 0)
  | num _, negInf => num (JQ.ofInt 0)

/-- JavaScript `%` on numbers: remainder with the sign of the dividend
(`a - b * trunc(a / b)`). -/
def mod : JSNum → JSNum → JSNum
  | num a, num b =>
      if b.isZero then nan
      else num (JQ.sub a (JQ.mul b (JQ.ofInt (JQ.trunc (JQ.div a b)))))
  | nan, _ => nan
  | _, nan => nan
  | posInf, _ => nan
  | negInf, _ => nan
  | num a, posInf => num a
  | num a, negInf => num a

/-- JavaScript `<` on numbers (false whenever NaN is involved). -/
def lt : JSNum → JSNum → Bool
  | num a, num b => JQ.lt a b
  | nan, _ => false
  | _, nan => false
  | negInf, negInf => false
  | negInf, _ => true
  | _, negInf => false
  | posInf, _ => false
  | num _, posInf => true

/-- JavaScript `===` on numbers (false whenever NaN is involved). -/
def strictEq : JSNum → JSNum → Bool
  | num a, num b => a == b
  | posInf, posInf => true
  | negInf, negInf => true
  | _, _ => false

end JSNum

/-- Token vocabulary of the lexer.  Mirrors the `*Token` classes; the
whitespace and comment tokens exist but are filtered out by `lexer`. -/
inductive Token where
  | control (control : String)
  | operator (op : String)
  | ident (ident : String)
  | intLit (value : JSNum)
  | uintLit (value : JSNum)
  | floatLit (value : JSNum)
  | stringLit (value : String)
  | byteLit (value : String)
  | boolLit (value : Bool)
  | nullLit
  | reserved (keyword : String)
  | whitespace
  | comment
deriving Repr, DecidableEq

/-- Source constant CONTROLS. -/
def CONTROLS : List String := ["?", ":", ".", "(", ")", "[", "]", "\x7b", "\x7d", ","]

/-- Source constant OPERATORS, in the exact source order (note that the
source lists "<" before "<="). -/
def OPERATORS : List String :=
  ["||", "&&", "<", "<=", ">=", ">", "==", "!=", "in", "+", "-", "*", "/", "%", "!"]

/-- Source constant RESERVED, in the exact source order. -/
def RESERVED : List String :=
  ["as", "break", "const", "continue", "else", "for", "function", "if", "import",
   "let", "loop", "package", "namespace", "return", "var", "void", "while"]

/-- Result of one recognizer: a token plus the remaining input (the source's
`[token, rest]`), no match (the source's `undefined`), or divergence of the
source's scanning loop (reachable on unterminated strings/comments). -/
inductive LexRes where
  | tok (t : Token) (rest : List Char)
  | nomatch
  | hang
deriving Repr, DecidableEq

/-- JavaScript `input.startsWith(pat)` on character lists. -/
def jsStartsWith : List Char → List Char → Bool
  | _, [] => true
  | [], _ :: _ => false
  | c :: cs, p :: ps => c == p && jsStartsWith cs ps

/-- Source `isIdentStart`; `none` models `input[0]` on empty input, on which
the JavaScript range comparisons are false. -/
def isIdentStart : Option Char → Bool
  | some c => ('a' ≤ c && c ≤ 'z') || ('A' ≤ c && c ≤ 'Z') || c == '_'
  | none => false

/-- Source `isIdentPart`. -/
def isIdentPart : Option Char → Bool
  | some c => isIdentStart (some c) || ('0' ≤ c && c ≤ '9')
  | none => false

/-- Source `isDigit`. -/
def isDigit : Option Char → Bool
  | some c => '0' ≤ c && c ≤ '9'
  | none => false

/-- Source `isHexDigit`. -/
def isHexDigit : Option Char → Bool
  | some c => ('0' ≤ c && c ≤ '9') || ('a' ≤ c && c ≤ 'f') || ('A' ≤ c && c ≤ 'F')
  | none => false

/-- Source `startsWithNewline`. -/
def startsWithNewline (s : List Char) : Bool :=
  jsStartsWith s ['\r', '\n'] || jsStartsWith s ['\r'] || jsStartsWith s ['\n']

/-- Source `startsWithWhitespace`. -/
def startsWithWhitespace (s : List Char) : Bool :=
  jsStartsWith s [' '] || jsStartsWith s ['\t'] || jsStartsWith s ['\n'] ||
    jsStartsWith s ['\x0c'] || jsStartsWith s ['\r']

/-- Source `lexControl`: first control string that prefixes the input; always
consumes exactly one character (`input.slice(1)`). -/
def lexControl (input : List Char) : LexRes :=
  match CONTROLS.find? (fun c => jsStartsWith input c.toList) with
  | some c => .tok (.control c) (input.drop 1)
  | none => .nomatch

/-- Source `lexOperator`: first operator (in OPERATORS order) that prefixes
the input, consuming `operator.length` characters. -/
def lexOperator (input : List Char) : LexRes :=
  match OPERATORS.find? (fun op => jsStartsWith input op.toList) with
  | some op => .tok (.operator op) (input.drop op.length)
  | none => .nomatch

/-- Source `lexReserved`: first reserved keyword (in RESERVED order) that
prefixes the input. -/
def lexReserved (input : List Char) : LexRes :=
  match RESERVED.find? (fun kw => jsStartsWith input kw.toList) with
  | some kw => .tok (.reserved kw) (input.drop kw.length)
  | none => .nomatch

/-- Greedy identifier scan of `lexIdent` (its `while (isIdentPart(input[0]))`
loop). -/
def identScan : List Char → List Char × List Char
  | [] => ([], [])
  | c :: cs =>
      if isIdentPart (some c) then
        let (taken, rest) := identScan cs
        (c :: taken, rest)
      else ([], c :: cs)

/-- Source `lexIdent`. -/
def lexIdent (input : List Char) : LexRes :=
  if isIdentStart input.head? then
    let (taken, rest) := identScan input
    .tok (.ident (String.mk taken)) rest
  else .nomatch

/-- Greedy digit scan (the `while (isDigit(input[0]))` loops). -/
def digitScan : List Char → List Char × List Char
  | [] => ([], [])
  | c :: cs =>
      if isDigit (some c) then
        let (taken, rest) := digitScan cs
        (c :: taken, rest)
      else ([], c :: cs)

/-- Greedy hex-digit scan. -/
def hexScan : List Char → List Char × List Char
  | [] => ([], [])
  | c :: cs =>
      if isHexDigit (some c) then
        let (taken, rest) := hexScan cs
        (c :: taken, rest)
      else ([], c :: cs)

/-- Decimal value of a digit string (`parseInt(digits)`, exact on digits). -/
def digitsToNat (ds : List Char) : Nat :=
  ds.foldl (fun acc c => acc * 10 + (c.toNat - '0'.toNat)) 0

/-- Hexadecimal digit value. -/
def hexDigitToNat (c : Char) : Nat :=
  if '0' ≤ c && c ≤ '9' then c.toNat - '0'.toNat
  else if 'a' ≤ c && c ≤ 'f' then c.toNat - 'a'.toNat + 10
  else c.toNat - 'A'.toNat + 10

/-- Hexadecimal value of a digit string (`parseInt(digits, 16)`). -/
def hexToNat (ds : List Char) : Nat :=
  ds.foldl (fun acc c => acc * 16 + hexDigitToNat c) 0

/-- Source `lexIntLitDec`: optional leading `-`, then one or more decimal
digits. -/
def lexIntLitDec (input : List Char) : LexRes :=
  let (positive, input1) :=
    if jsStartsWith input ['-'] then (false, input.drop 1) else (true, input)
  if isDigit input1.head? then
    let (taken, rest) := digitScan input1
    let v : JQ := .ofInt (digitsToNat taken : Int)
    .tok (.intLit (.num (if positive then v else v.neg))) rest
  else .nomatch

/-- Source `lexIntLitHex`: optional leading `-`, then `0x` (lowercase only in
the source) and one or more hex digits. -/
def lexIntLitHex (input : List Char) : LexRes :=
  let (positive, input1) :=
    if jsStartsWith input ['-'] then (false, input.drop 1) else (true, input)
  if jsStartsWith input1 ['0', 'x'] then
    let input2 := input1.drop 2
    if isHexDigit input2.head? then
      let (taken, rest) := hexScan input2
      let v : JQ := .ofInt (hexToNat taken : Int)
      .tok (.intLit (.num (if positive then v else v.neg))) rest
    else .nomatch
  else .nomatch

/-- Source `lexIntLit`: decimal first, then hex. -/
def lexIntLit (input : List Char) : LexRes :=
  match lexIntLitDec input with
  | .tok t rest => .tok t rest
  | _ =>
    match lexIntLitHex input with
    | .tok t rest => .tok t rest
    | _ => .nomatch

/-- Source `lexUintLit`.  Faithfully to the source, the `u`/`U` suffix test is
performed on the ORIGINAL input (not on the rest after the integer), and on
success one character is dropped from the rest; since an integer literal never
begins with `u`, this recognizer never succeeds. -/
def lexUintLit (input : List Char) : LexRes :=
  match lexIntLit input with
  | .tok (.intLit v) rest =>
      if jsStartsWith input ['u'] || jsStartsWith input ['U'] then
        .tok (.uintLit v) (rest.drop 1)
      else .nomatch
  | _ => .nomatch

/-- Scanning loop of `lexStringLitSingle`.  The escape flag, once set by a
backslash, is never cleared (faithful to the source).  On exhausted input the
source loop runs forever (string concatenation with `undefined`), modelled as
`hang`.  Returns the collected characters and the rest after the closing
quote. -/
def stringSingleScan (quote : Char) : Bool → List Char → List Char → LexRes
  | _, _, [] => .hang
  | esc, acc, c :: rest =>
      if c == '\\' then stringSingleScan quote true acc rest
      else if startsWithNewline (c :: rest) then .nomatch
      else if c == quote && !esc then .tok (.stringLit (String.mk acc)) rest
      else stringSingleScan quote esc (acc ++ [c]) rest

/-- Source `lexStringLitSingle`: single- or double-quoted string. -/
def lexStringLitSingle (input : List Char) : LexRes :=
  match input with
  | c :: rest =>
      if c == '"' || c == '\'' then stringSingleScan c false [] rest
      else .nomatch
  | [] => .nomatch

/-- Scanning loop of `lexStringLitMulti`.  `orig` is the input as it stood
after the opening triple quote: the source returns
`input.slice(str.length + 3)` where `input` has ALREADY advanced past `str`,
so the returned rest drops `str.length + 3` characters from the CURRENT
position (skipping characters after the closing quote; faithful slip).  On
exhausted input the source loop runs forever, modelled as `hang`. -/
def stringMultiScan (quote : List Char) : List Char → List Char → LexRes
  | _, [] => .hang
  | acc, c :: rest =>
      if jsStartsWith (c :: rest) quote then
        .tok (.stringLit (String.mk acc)) ((c :: rest).drop (acc.length + 3))
      else stringMultiScan quote (acc ++ [c]) rest

/-- Source `lexStringLitMulti`: triple-quoted string. -/
def lexStringLitMulti (input : List Char) : LexRes :=
  if jsStartsWith input ['"', '"', '"'] then
    stringMultiScan ['"', '"', '"'] [] (input.drop 3)
  else if jsStartsWith input ['\'', '\'', '\''] then
    stringMultiScan ['\'', '\'', '\''] [] (input.drop 3)
  else .nomatch

/-- Source `lexStringLit`: optional raw prefix `r`/`R`, then single- or
triple-quoted form.  The source's raw handling (`String.raw` of the already
collected string) is the identity on the collected value. -/
def lexStringLit (input : List Char) : LexRes :=
  let input1 :=
    if jsStartsWith input ['r'] || jsStartsWith input ['R'] then input.drop 1 else input
  match lexStringLitSingle input1 with
  | .tok t rest => .tok t rest
  | .hang => .hang
  | .nomatch =>
    match lexStringLitMulti input1 with
    | .tok t rest => .tok t rest
    | .hang => .hang
    | .nomatch => .nomatch

/-- Source `lexByteLit`: a `b`/`B` prefix followed by a string literal. -/
def lexByteLit (input : List Char) : LexRes :=
  if jsStartsWith input ['b'] || jsStartsWith input ['B'] then
    match lexStringLit (input.drop 1) with
    | .tok (.stringLit v) rest => .tok (.byteLit v) rest
    | .hang => .hang
    | _ => .nomatch
  else .nomatch

/-- Source `lexBoolLit`. -/
def lexBoolLit (input : List Char) : LexRes :=
  if jsStartsWith input "true".toList then .tok (.boolLit true) (input.drop 4)
  else if jsStartsWith input "false".toList then .tok (.boolLit false) (input.drop 5)
  else .nomatch

/-- Source `lexNullLit`. -/
def lexNullLit (input : List Char) : LexRes :=
  if jsStartsWith input "null".toList then .tok .nullLit (input.drop 4)
  else .nomatch

/-- Whitespace-consuming loop of `lexWhitespace`. -/
def whitespaceScan : List Char → List Char
  | [] => []
  | c :: cs => if startsWithWhitespace (c :: cs) then whitespaceScan cs else c :: cs

/-- Source `lexWhitespace`. -/
def lexWhitespace (input : List Char) : LexRes :=
  if startsWithWhitespace input then .tok .whitespace (whitespaceScan input)
  else .nomatch

/-- Comment-consuming loop of `lexComment`: consume until a newline, then drop
the newline (two characters for CRLF).  An unterminated comment makes the
source loop forever, modelled as `hang`. -/
def commentScan : List Char → LexRes
  | [] => .hang
  | c :: rest =>
      if startsWithNewline (c :: rest) then
        .tok .comment ((c :: rest).drop (if jsStartsWith (c :: rest) ['\r', '\n'] then 2 else 1))
      else commentScan rest

/-- Source `lexComment`. -/
def lexComment (input : List Char) : LexRes :=
  if jsStartsWith input ['/', '/'] then commentScan input
  else .nomatch

/-- The recognizer list of `lexer`, in source order.  The source defines
float recognizers (`lexFloatWithDot` / `lexFloatWithoutDot`) but never
registers them in this list, so they are omitted here as dead code. -/
def lexers : List (List Char → LexRes) :=
  [lexWhitespace, lexComment, lexControl, lexOperator, lexReserved, lexUintLit,
   lexIntLit, lexStringLit, lexByteLit, lexBoolLit, lexNullLit, lexIdent]

/-- Overall outcome of `lexer`: a token list, a thrown
`Unexpected character` error, divergence of a scanning loop, or fuel
exhaustion (modelling artifact, unreachable with enough fuel on terminating
inputs). -/
inductive LexOut where
  | toks (ts : List Token)
  | unexpectedChar (c : Char)
  | hang
  | fuelOut
deriving Repr, DecidableEq

/-- First recognizer in the list that matches, as in the source's inner
`for` loop. -/
def tryLexers : List (List Char → LexRes) → List Char → LexRes
  | [], _ => .nomatch
  | l :: ls, input =>
      match l input with
      | .tok t rest => .tok t rest
      | .hang => .hang
      | .nomatch => tryLexers ls input

/-- Main loop of `lexer` (its `while (input !== "")`). -/
def lexerLoop : Nat → List Char → List Token → LexOut
  | 0, _, _ => .fuelOut
  | _ + 1, [], acc => .toks acc
  | fuel + 1, c :: rest, acc =>
      match tryLexers lexers (c :: rest) with
      | .tok t rest1 => lexerLoop fuel rest1 (acc ++ [t])
      | .hang => .hang
      | .nomatch => .unexpectedChar c

/-- Source `lexer`: run the recognizer loop, then filter out whitespace and
comment tokens. -/
def lexer (fuel : Nat) (input : List Char) : LexOut :=
  match lexerLoop fuel input [] with
  | .toks ts => .toks (ts.filter (fun t => !(t == .whitespace || t == .comment)))
  | out => out

/-! Expression tree, mirroring the parser's node classes.  A parenthesized
subexpression is a `Primary` that is itself an `Expr` (the source's union
type); the `Primary.expr` constructor is that union injection. -/

mutual

inductive Expr where
  | orE (e : OrExpr)
  | ternary (cond : OrExpr) (thenB : OrExpr) (elsB : Expr)

inductive OrExpr where
  | mk (exprs : List AndExpr)

inductive AndExpr where
  | mk (exprs : List RelExpr)

inductive RelExpr where
  | mk (exprs : List AddExpr) (ops : List String)

inductive AddExpr where
  | mk (exprs : List MultExpr) (ops : List String)

inductive MultExpr where
  | mk (exprs : List UnaryExpr) (ops : List String)

inductive UnaryExpr where
  | mk (member : Member) (ops : List String)

inductive Member where
  | primary (p : Primary)
  | funcCall (member : Member) (exprs : List Expr)
  | index (member : Member) (idx : Expr)

inductive Primary where
  | intLit (value : JSNum)
  | uintLit (value : JSNum)
  | floatLit (value : JSNum)
  | stringLit (value : String)
  | byteLit (value : String)
  | boolLit (value : Bool)
  | nullLit
  | ident (name : String)
  | listE (exprs : List Expr)
  | mapE (entries : List (Expr × Expr))
  | expr (e : Expr)

end

/-- Result of one parse function: a node plus remaining tokens (the source's
`[node, tokens]`), no parse (the source's `undefined`), or fuel exhaustion.
Fuel exhaustion models the source's reachable non-termination
(`parseMember` recurses on an unchanged token list when `parsePrimary`
fails); on inputs where the source terminates, enough fuel never produces
`fuelOut`. -/
inductive PRes (α : Type) where
  | found (a : α) (rest : List Token)
  | nomatch
  | fuelOut

/-- Source `matchesControlToken` applied to `tokens[0]` (`none` models the
out-of-range read, on which `instanceof` is false). -/
def matchesControlToken (t : Option Token) (controls : List String) : Bool :=
  match t with
  | some (.control c) => controls.contains c
  | _ => false

/-- Source `matchesOperatorToken` applied to `tokens[0]`. -/
def matchesOperatorToken (t : Option Token) (operators : List String) : Bool :=
  match t with
  | some (.operator op) => operators.contains op
  | _ => false

/-- Source `newIdentExpr`: wraps an identifier into a full expression chain
(used to pass a method name as a synthesized first argument). -/
def newIdentExpr (name : String) : Expr :=
  .orE (.mk [.mk [.mk [.mk [.mk [.mk (.primary (.ident name)) []] []] []] []]])

/-- The run of identical leading `!` or `-` operator tokens consumed by
`parseUnary`. -/
def unaryRun (op : String) : List Token → List String × List Token
  | .operator o :: rest =>
      if o == op then
        let (ops, rest1) := unaryRun op rest
        (o :: ops, rest1)
      else ([], .operator o :: rest)
  | ts => ([], ts)

/-- Source `parseLiteral` (pure one-token lookahead, no recursion). -/
def parseLiteral : List Token → Option (Primary × List Token)
  | .intLit v :: rest => some (.intLit v, rest)
  | .uintLit v :: rest => some (.uintLit v, rest)
  | .floatLit v :: rest => some (.floatLit v, rest)
  | .stringLit v :: rest => some (.stringLit v, rest)
  | .byteLit v :: rest => some (.byteLit v, rest)
  | .boolLit v :: rest => some (.boolLit v, rest)
  | .nullLit :: rest => some (.nullLit, rest)
  | _ => none

mutual

/-- Source `parseExpr`: a conditional-or, optionally followed by
`? ConditionalOr : Expr`. -/
def parseExpr : Nat → List Token → PRes Expr
  | 0, _ => .fuelOut
  | fuel + 1, tokens =>
      match parseConditionalOr fuel tokens with
      | .fuelOut => .fuelOut
      | .nomatch => .nomatch
      | .found cond tokens1 =>
          if matchesControlToken tokens1.head? ["?"] then
            match parseConditionalOr fuel (tokens1.drop 1) with
            | .fuelOut => .fuelOut
            | .nomatch => .nomatch
            | .found thenB tokens2 =>
                if matchesControlToken tokens2.head? [":"] then
                  match parseExpr fuel (tokens2.drop 1) with
                  | .fuelOut => .fuelOut
                  | .nomatch => .nomatch
                  | .found elsB tokens3 => .found (.ternary cond thenB elsB) tokens3
                else .nomatch
          else .found (.orE cond) tokens1

/-- Source `parseConditionalOr`. -/
def parseConditionalOr : Nat → List Token → PRes OrExpr
  | 0, _ => .fuelOut
  | fuel + 1, tokens =>
      match parseConditionalAnd fuel tokens with
      | .fuelOut => .fuelOut
      | .nomatch => .nomatch
      | .found first tokens1 => parseOrLoop fuel [first] tokens1

/-- The `while ("||")` loop of `parseConditionalOr`. -/
def parseOrLoop : Nat → List AndExpr → List Token → PRes OrExpr
  | 0, _, _ => .fuelOut
  | fuel + 1, acc, tokens =>
      if matchesOperatorToken tokens.head? ["||"] then
        match parseConditionalAnd fuel (tokens.drop 1) with
        | .fuelOut => .fuelOut
        | .nomatch => .nomatch
        | .found e tokens1 => parseOrLoop fuel (acc ++ [e]) tokens1
      else .found (.mk acc) tokens

/-- Source `parseConditionalAnd`. -/
def parseConditionalAnd : Nat → List Token → PRes AndExpr
  | 0, _ => .fuelOut
  | fuel + 1, tokens =>
      match parseRelation fuel tokens with
      | .fuelOut => .fuelOut
      | .nomatch => .nomatch
      | .found first tokens1 => parseAndLoop fuel [first] tokens1

/-- The `while ("&&")` loop of `parseConditionalAnd`. -/
def parseAndLoop : Nat → List RelExpr → List Token → PRes AndExpr
  | 0, _, _ => .fuelOut
  | fuel + 1, acc, tokens =>
      if matchesOperatorToken tokens.head? ["&&"] then
        match parseRelation fuel (tokens.drop 1) with
        | .fuelOut => .fuelOut
        | .nomatch => .nomatch
        | .found e tokens1 => parseAndLoop fuel (acc ++ [e]) tokens1
      else .found (.mk acc) tokens

/-- Source `parseRelation`: one addition, optionally ONE relational operator
and a second addition (no chaining; the source uses `if`, not `while`). -/
def parseRelation : Nat → List Token → PRes RelExpr
  | 0, _ => .fuelOut
  | fuel + 1, tokens =>
      match parseAddition fuel tokens with
      | .fuelOut => .fuelOut
      | .nomatch => .nomatch
      | .found first tokens1 =>
          match tokens1 with
          | .operator op :: rest =>
              if ["<", "<=", ">=", ">", "==", "!=", "in"].contains op then
                match parseAddition fuel rest with
                | .fuelOut => .fuelOut
                | .nomatch => .nomatch
                | .found second tokens2 => .found (.mk [first, second] [op]) tokens2
              else .found (.mk [first] []) tokens1
          | _ => .found (.mk [first] []) tokens1

/-- Source `parseAddition`. -/
def parseAddition : Nat → List Token → PRes AddExpr
  | 0, _ => .fuelOut
  | fuel + 1, tokens =>
      match parseMultiplication fuel tokens with
      | .fuelOut => .fuelOut
      | .nomatch => .nomatch
      | .found first tokens1 => parseAddLoop fuel [first] [] tokens1

/-- The `while ("+"|"-")` loop of `parseAddition`. -/
def parseAddLoop : Nat → List MultExpr → List String → List Token → PRes AddExpr
  | 0, _, _, _ => .fuelOut
  | fuel + 1, acc, ops, tokens =>
      match tokens with
      | .operator op :: rest =>
          if ["+", "-"].contains op then
            match parseMultiplication fuel rest with
            | .fuelOut => .fuelOut
            | .nomatch => .nomatch
            | .found e tokens1 => parseAddLoop fuel (acc ++ [e]) (ops ++ [op]) tokens1
          else .found (.mk acc ops) tokens
      | _ => .found (.mk acc ops) tokens

/-- Source `parseMultiplication`. -/
def parseMultiplication : Nat → List Token → PRes MultExpr
  | 0, _ => .fuelOut
  | fuel + 1, tokens =>
      match parseUnary fuel tokens with
      | .fuelOut => .fuelOut
      | .nomatch => .nomatch
      | .found first tokens1 => parseMultLoop fuel [first] [] tokens1

/-- The `while ("*"|"/"|"%")` loop of `parseMultiplication`. -/
def parseMultLoop : Nat → List UnaryExpr → List String → List Token → PRes MultExpr
  | 0, _, _, _ => .fuelOut
  | fuel + 1, acc, ops, tokens =>
      match tokens with
      | .operator op :: rest =>
          if ["*", "/", "%"].contains op then
            match parseUnary fuel rest with
            | .fuelOut => .fuelOut
            | .nomatch => .nomatch
            | .found e tokens1 => parseMultLoop fuel (acc ++ [e]) (ops ++ [op]) tokens1
          else .found (.mk acc ops) tokens
      | _ => .found (.mk acc ops) tokens

/-- Source `parseUnary`: a run of identical `!` or `-` operators (the run is
keyed to the first operator seen), then a member. -/
def parseUnary : Nat → List Token → PRes UnaryExpr
  | 0, _ => .fuelOut
  | fuel + 1, tokens =>
      let (ops, tokens1) :=
        match tokens.head? with
        | some (.operator op) =>
            if ["!", "-"].contains op then unaryRun op tokens else ([], tokens)
        | _ => ([], tokens)
      match parseMember fuel tokens1 with
      | .fuelOut => .fuelOut
      | .nomatch => .nomatch
      | .found m tokens2 => .found (.mk m ops) tokens2

/-- Source `parseMember`.  Faithfully to the source: if `parsePrimary`
succeeds its result is returned IMMEDIATELY, without attempting any
`[...]`/`(...)` suffix; otherwise `parseMember` recurses on the SAME token
list (consuming fuel), so the suffix-handling branch below is unreachable
and a failing primary makes the source diverge. -/
def parseMember : Nat → List Token → PRes Member
  | 0, _ => .fuelOut
  | fuel + 1, tokens =>
      match parsePrimary fuel tokens with
      | .found p rest => .found (.primary p) rest
      | .fuelOut => .fuelOut
      | .nomatch =>
          match parseMember fuel tokens with
          | .fuelOut => .fuelOut
          | .nomatch => .nomatch
          | .found member tokens1 =>
              if matchesControlToken tokens1.head? [".", "("] then
                let (method?, tokens2) :=
                  if matchesControlToken tokens1.head? ["."] then
                    match (tokens1.drop 1).head? with
                    | some (.ident name) => (some (some name), (tokens1.drop 1).drop 1)
                    | _ => (none, tokens1.drop 1)
                  else (some none, tokens1)
                match method? with
                | none => .nomatch
                | some method =>
                    if matchesControlToken tokens2.head? ["("] then
                      match parseExprList fuel (tokens2.drop 1) with
                      | .fuelOut => .fuelOut
                      | .nomatch => .nomatch
                      | .found exprList tokens3 =>
                          let exprList1 :=
                            match method with
                            | some name => newIdentExpr name :: exprList
                            | none => exprList
                          if matchesControlToken tokens3.head? [")"] then
                            .found (.funcCall member exprList1) (tokens3.drop 1)
                          else .nomatch
                    else .nomatch
              else if matchesControlToken tokens1.head? ["["] then
                match parseExpr fuel (tokens1.drop 1) with
                | .fuelOut => .fuelOut
                | .nomatch => .nomatch
                | .found e tokens2 =>
                    if matchesControlToken tokens2.head? ["]"] then
                      .found (.index member e) (tokens2.drop 1)
                    else .nomatch
              else .found member tokens1

/-- Source `parsePrimary`: literal, identifier, parenthesized expression,
list literal, or map literal. -/
def parsePrimary : Nat → List Token → PRes Primary
  | 0, _ => .fuelOut
  | fuel + 1, tokens =>
      match parseLiteral tokens with
      | some (lit, rest) => .found lit rest
      | none =>
          match tokens.head? with
          | some (.ident name) => .found (.ident name) (tokens.drop 1)
          | _ =>
              if matchesControlToken tokens.head? ["("] then
                match parseExpr fuel (tokens.drop 1) with
                | .fuelOut => .fuelOut
                | .nomatch => .nomatch
                | .found e tokens1 =>
                    if matchesControlToken tokens1.head? [")"] then
                      .found (.expr e) (tokens1.drop 1)
                    else .nomatch
              else if matchesControlToken tokens.head? ["["] then
                match parseExprList fuel (tokens.drop 1) with
                | .fuelOut => .fuelOut
                | .nomatch => .nomatch
                | .found exprList tokens1 =>
                    let tokens2 :=
                      if matchesControlToken tokens1.head? [","] then tokens1.drop 1
                      else tokens1
                    if matchesControlToken tokens2.head? ["]"] then
                      .found (.listE exprList) (tokens2.drop 1)
                    else .nomatch
              else if matchesControlToken tokens.head? ["\x7b"] then
                match parseMapInits fuel (tokens.drop 1) with
                | .fuelOut => .fuelOut
                | .nomatch => .nomatch
                | .found mapInits tokens1 =>
                    let tokens2 :=
                      if matchesControlToken tokens1.head? [","] then tokens1.drop 1
                      else tokens1
                    if matchesControlToken tokens2.head? ["\x7d"] then
                      .found (.mapE mapInits) (tokens2.drop 1)
                    else .nomatch
              else .nomatch

/-- Source `parseExprList`.  Faithfully to the source, every iteration of
its loop requires a LEADING comma, so a list such as `[1, 2]`, whose first
element is not preceded by a comma, takes zero iterations and the function
returns `undefined` (empty accumulator). -/
def parseExprList : Nat → List Token → PRes (List Expr)
  | 0, _ => .fuelOut
  | fuel + 1, tokens => parseExprListLoop fuel [] tokens

/-- The leading-comma loop of `parseExprList`. -/
def parseExprListLoop : Nat → List Expr → List Token → PRes (List Expr)
  | 0, _, _ => .fuelOut
  | fuel + 1, acc, tokens =>
      if matchesControlToken tokens.head? [","] then
        match parseExpr fuel (tokens.drop 1) with
        | .fuelOut => .fuelOut
        | .nomatch => .nomatch
        | .found e tokens1 => parseExprListLoop fuel (acc ++ [e]) tokens1
      else if acc.isEmpty then .nomatch
      else .found acc tokens

/-- Source `parseMapInits` (same leading-comma behavior as
`parseExprList`). -/
def parseMapInits : Nat → List Token → PRes (List (Expr × Expr))
  | 0, _ => .fuelOut
  | fuel + 1, tokens => parseMapInitsLoop fuel [] tokens

/-- The leading-comma loop of `parseMapInits`. -/
def parseMapInitsLoop : Nat → List (Expr × Expr) → List Token → PRes (List (Expr × Expr))
  | 0, _, _ => .fuelOut
  | fuel + 1, acc, tokens =>
      if matchesControlToken tokens.head? [","] then
        match parseExpr fuel (tokens.drop 1) with
        | .fuelOut => .fuelOut
        | .nomatch => .nomatch
        | .found key tokens1 =>
            if matchesControlToken tokens1.head? [":"] then
              match parseExpr fuel (tokens1.drop 1) with
              | .fuelOut => .fuelOut
              | .nomatch => .nomatch
              | .found value tokens2 => parseMapInitsLoop fuel (acc ++ [(key, value)]) tokens2
            else .nomatch
      else if acc.isEmpty then .nomatch
      else .found acc tokens

end

/-- Outcome of `parser`: the expression tree, the thrown
`Unexpected end of input` error, or fuel exhaustion. -/
inductive POut where
  | ok (e : Expr)
  | fail
  | fuelOut

/-- Source `parser`: run `parseExpr` and return its tree, DISCARDING any
remaining unconsumed tokens (`return ret[0]`); it throws only when
`parseExpr` itself returns `undefined`. -/
def parser (fuel : Nat) (tokens : List Token) : POut :=
  match parseExpr fuel tokens with
  | .found e _ => .ok e
  | .nomatch => .fail
  | .fuelOut => .fuelOut

/-! Runtime values.  Each `*Value` class instance of the source is a
JavaScript object with reference identity; the `id` field records the value
drawn from the allocation counter at its `new` site, so two constructed
values are the same object iff their ids are equal.  `jsUndefined` is the
JavaScript `undefined` that leaks out of out-of-range indexing and missing
property reads; it is not an object and carries no id. -/
inductive Value where
  | vint (id : Nat) (value : JSNum)
  | vuint (id : Nat) (value : JSNum)
  | vfloat (id : Nat) (value : JSNum)
  | vstring (id : Nat) (value : String)
  | vbyte (id : Nat) (value : String)
  | vbool (id : Nat) (value : Bool)
  | vnull (id : Nat)
  | vlist (id : Nat) (value : List Value)
  | vmap (id : Nat) (value : List (String × Value))
  | jsUndefined
deriving Repr

/-- Runtime error outcomes: `jsError` is a `throw new Error(msg)` (carrying
the static message prefix), `jsTypeError` a property read on `undefined`,
and `fuelOut` the fuel-exhaustion modelling artifact. -/
inductive EvalErr where
  | jsError (msg : String)
  | jsTypeError
  | fuelOut
deriving Repr, DecidableEq

/-- Caller-supplied activation (`Record<string, Value>`). -/
abbrev Activation := List (String × Value)

/-- Evaluation monad: the allocation counter threaded through `Except`. -/
abbrev EvalM := StateT Nat (Except EvalErr)

/-- Draw a fresh object identifier (one `new` in the source). -/
def fresh : EvalM Nat := fun n => .ok (n, n + 1)

/-- Throw a runtime error. -/
def throwE {α : Type} (e : EvalErr) : EvalM α := fun _ => .error e

/-- Lift an allocation-free computation into the evaluation monad. -/
def liftE {α : Type} (e : Except EvalErr α) : EvalM α := fun n => e.map (·, n)

def newIntValue (x : JSNum) : EvalM Value := do pure (.vint (← fresh) x)
def newUintValue (x : JSNum) : EvalM Value := do pure (.vuint (← fresh) x)
def newFloatValue (x : JSNum) : EvalM Value := do pure (.vfloat (← fresh) x)
def newStringValue (x : String) : EvalM Value := do pure (.vstring (← fresh) x)
def newByteValue (x : String) : EvalM Value := do pure (.vbyte (← fresh) x)
def newBoolValue (x : Bool) : EvalM Value := do pure (.vbool (← fresh) x)
def newNullValue : EvalM Value := do pure (.vnull (← fresh))
def newListValue (x : List Value) : EvalM Value := do pure (.vlist (← fresh) x)
def newMapValue (x : List (String × Value)) : EvalM Value := do pure (.vmap (← fresh) x)

def isIntV : Value → Bool
  | .vint .. => true
  | _ => false

def isUintV : Value → Bool
  | .vuint .. => true
  | _ => false

def isFloatV : Value → Bool
  | .vfloat .. => true
  | _ => false

/-- Matches `instanceof IntValue || instanceof UintValue || instanceof
FloatValue`. -/
def isNumericV (v : Value) : Bool := isIntV v || isUintV v || isFloatV v

def isStringV : Value → Bool
  | .vstring .. => true
  | _ => false

def isByteV : Value → Bool
  | .vbyte .. => true
  | _ => false

def isBoolV : Value → Bool
  | .vbool .. => true
  | _ => false

def isListV : Value → Bool
  | .vlist .. => true
  | _ => false

def isMapV : Value → Bool
  | .vmap .. => true
  | _ => false

/-- Allocation id of an object value (never called on `jsUndefined`). -/
def vid : Value → Nat
  | .vint i _ => i
  | .vuint i _ => i
  | .vfloat i _ => i
  | .vstring i _ => i
  | .vbyte i _ => i
  | .vbool i _ => i
  | .vnull i => i
  | .vlist i _ => i
  | .vmap i _ => i
  | .jsUndefined => 0

/-- Numeric `.value` field (only read behind a numeric-kind guard). -/
def numField : Value → JSNum
  | .vint _ n => n
  | .vuint _ n => n
  | .vfloat _ n => n
  | _ => .nan

/-- String `.value` field (only read behind a string/byte guard). -/
def strField : Value → String
  | .vstring _ s => s
  | .vbyte _ s => s
  | _ => ""

/-- Boolean `.value` field (only read behind a Bool guard). -/
def boolField : Value → Bool
  | .vbool _ b => b
  | _ => false

/-- List `.value` payload (only read behind a List guard). -/
def listPayload : Value → List Value
  | .vlist _ l => l
  | _ => []

/-- JavaScript truthiness of a runtime value: every object is truthy;
`undefined` is falsy. -/
def jsTruthy : Value → Bool
  | .jsUndefined => false
  | _ => true

/-- JavaScript `===` on two runtime values (the wrappers themselves):
`undefined === undefined` is true, an object equals only itself (same
allocation id). -/
def jsStrictEq : Value → Value → Bool
  | .jsUndefined, .jsUndefined => true
  | .jsUndefined, _ => false
  | _, .jsUndefined => false
  | a, b => vid a == vid b

/-- JavaScript `left.value === right.value` on the `.value` fields of two
non-`jsUndefined` values.  Numeric fields compare by number (so Int/Uint/Float
cross-compare), string fields by text, `null === null` is true, and a List
or Map `.value` field is an array/object owned 1-1 by its wrapper, so its
reference equality is id equality of the wrappers (and always false across
the List/Map kind boundary, the two being distinct objects). -/
def fieldEq (a b : Value) : Bool :=
  if isNumericV a && isNumericV b then JSNum.strictEq (numField a) (numField b)
  else if (isStringV a || isByteV a) && (isStringV b || isByteV b) then strField a == strField b
  else
    match a, b with
    | .vbool _ x, .vbool _ y => x == y
    | .vnull _, .vnull _ => true
    | .vlist i _, .vlist j _ => i == j
    | .vmap i _, .vmap j _ => i == j
    | _, _ => false

/-- JavaScript `ToNumber` on the primitive `.value` fields, used by the `<`
comparison when the operands are not both strings.  The string case is an
approximation (digit strings and the empty string are converted exactly,
everything else is NaN); no verified theorem exercises it. -/
def toNumPrim : Value → JSNum
  | .vint _ n => n
  | .vuint _ n => n
  | .vfloat _ n => n
  | .vbool _ b => .num (.ofInt (if b then 1 else 0))
  | .vnull _ => .num (.ofInt 0)
  | .vstring _ s => if s.isEmpty then .num (.ofInt 0)
      else if s.toList.all (fun c => isDigit (some c)) then .num (.ofInt (digitsToNat s.toList : Int))
      else .nan
  | .vbyte _ s => if s.isEmpty then .num (.ofInt 0)
      else if s.toList.all (fun c => isDigit (some c)) then .num (.ofInt (digitsToNat s.toList : Int))
      else .nan
  | _ => .nan

/-- JavaScript `left.value < right.value` on primitive fields: both strings
compare lexicographically, otherwise both sides convert to number. -/
def fieldLt (a b : Value) : Bool :=
  if (isStringV a || isByteV a) && (isStringV b || isByteV b) then
    decide (strField a < strField b)
  else JSNum.lt (toNumPrim a) (toNumPrim b)

/-- JavaScript object property read `m[key]`: the stored value, or
`undefined` when the key is absent. -/
def mapGet (m : List (String × Value)) (key : String) : Value :=
  match m.find? (fun p => p.1 == key) with
  | some p => p.2
  | none => .jsUndefined

/-- Insertion into an ascending string list (JavaScript default `sort`). -/
def insertString (s : String) : List String → List String
  | [] => [s]
  | t :: ts => if decide (s ≤ t) then s :: t :: ts else t :: insertString s ts

/-- JavaScript `Object.keys(x).sort()`. -/
def sortStrings : List String → List String
  | [] => []
  | s :: ss => insertString s (sortStrings ss)

mutual

/-- Source `valuesEqual`: structural dispatch for two Lists or two Maps,
otherwise `left.value === right.value` (a TypeError if either side is
`undefined`). -/
def valuesEqual : Nat → Value → Value → Except EvalErr Bool
  | 0, _, _ => .error .fuelOut
  | fuel + 1, left, right =>
      match left, right with
      | .vlist _ lv, .vlist _ rv => listValuesEqual fuel lv rv
      | .vmap _ lm, .vmap _ rm => mapValuesEqual fuel lm rm
      | .jsUndefined, _ => .error .jsTypeError
      | _, .jsUndefined => .error .jsTypeError
      | l, r => .ok (fieldEq l r)

/-- Source `listValuesEqual` on the two payload arrays: equal lengths, then
the element predicate position by position. -/
def listValuesEqual : Nat → List Value → List Value → Except EvalErr Bool
  | 0, _, _ => .error .fuelOut
  | fuel + 1, left, right =>
      if left.length == right.length then listElemsEqual fuel left right
      else .ok false

/-- The `every` loop of `listValuesEqual` (short-circuits at the first
false; only reached when the lengths are equal). -/
def listElemsEqual : Nat → List Value → List Value → Except EvalErr Bool
  | 0, _, _ => .error .fuelOut
  | _ + 1, [], _ => .ok true
  | _ + 1, _ :: _, [] => .ok true
  | fuel + 1, l :: ls, r :: rs => do
      let b ← listElemEqual fuel l r
      if b then listElemsEqual fuel ls rs else pure false

/-- The element predicate of `listValuesEqual`: recurse into two nested
Lists or two nested Maps, otherwise `left[i] === right[i]` — REFERENCE
equality of the element objects (the source slip: freshly constructed equal
leaf values are distinct objects and compare unequal). -/
def listElemEqual : Nat → Value → Value → Except EvalErr Bool
  | 0, _, _ => .error .fuelOut
  | fuel + 1, l, r =>
      match l, r with
      | .vlist _ lv, .vlist _ rv => listValuesEqual fuel lv rv
      | .vmap _ lm, .vmap _ rm => mapValuesEqual fuel lm rm
      | _, _ => .ok (jsStrictEq l r)

/-- Source `mapValuesEqual`: sorted key lists must agree, then each key's
values are compared (recursing only into List values — the source has no
Map recursion here — and otherwise by `===`, reference equality). -/
def mapValuesEqual : Nat → List (String × Value) → List (String × Value) → Except EvalErr Bool
  | 0, _, _ => .error .fuelOut
  | fuel + 1, left, right =>
      let leftKeys := sortStrings (left.map Prod.fst)
      let rightKeys := sortStrings (right.map Prod.fst)
      if leftKeys.length == rightKeys.length && leftKeys == rightKeys then
        mapKeysEqual fuel leftKeys left right
      else .ok false

/-- The `every` loop over the (sorted) keys in `mapValuesEqual`. -/
def mapKeysEqual : Nat → List String → List (String × Value) → List (String × Value) →
    Except EvalErr Bool
  | 0, _, _, _ => .error .fuelOut
  | _ + 1, [], _, _ => .ok true
  | fuel + 1, key :: keys, left, right => do
      let b ←
        match mapGet left key, mapGet right key with
        | .vlist _ lv, .vlist _ rv => listValuesEqual fuel lv rv
        | lv, rv => pure (jsStrictEq lv rv)
      if b then mapKeysEqual fuel keys left right else pure false

end

/-- Source `valuesLessThan`: Lists and Maps are a thrown dispatch error;
otherwise `left.value < right.value` (a TypeError if either side is
`undefined`). -/
def valuesLessThan (left right : Value) : Except EvalErr Bool :=
  if isListV left || isListV right then .error (.jsError "List comparison is not implemented")
  else if isMapV left || isMapV right then .error (.jsError "Map comparison is not implemented")
  else
    match left, right with
    | .jsUndefined, _ => .error .jsTypeError
    | _, .jsUndefined => .error .jsTypeError
    | l, r => .ok (fieldLt l r)

/-- Source `valuesLessThanOrEqual`: `valuesLessThan(l, r) ||
valuesEqual(l, r)` with JavaScript short-circuit. -/
def valuesLessThanOrEqual (fuel : Nat) (left right : Value) : Except EvalErr Bool := do
  let lt ← valuesLessThan left right
  if lt then pure true else valuesEqual fuel left right

/-- Source `valueInList`: `right.value.some(v => valuesEqual(left, v))`
(short-circuits at the first hit). -/
def valueInList (fuel : Nat) (left : Value) : List Value → Except EvalErr Bool
  | [] => .ok false
  | v :: vs => do
      let b ← valuesEqual fuel left v
      if b then pure true else valueInList fuel left vs

/-- Source `valueInMap`: some key of the map object, compared against the
left value after wrapping the key in a NEW `StringValue` (each examined key
allocates one object). -/
def valueInMap (fuel : Nat) (left : Value) : List (String × Value) → EvalM Bool
  | [] => pure false
  | (key, _) :: rest => do
      let i ← fresh
      let b ← liftE (valuesEqual fuel left (.vstring i key))
      if b then pure true else valueInMap fuel left rest

/-- One step of the relational `reduce`: the switch body of `evalRelExpr`
for one operator.  The accumulator guard is JavaScript `&&`
(short-circuiting the predicate call, but NOT the dispatch `throw`s of the
`in` case and the default case, which sit outside any `acc &&`). -/
def relStep (fuel : Nat) (op : String) (left right : Value) (acc : Bool) : EvalM Bool :=
  match op with
  | "==" => if acc then liftE (valuesEqual fuel left right) else pure false
  | "!=" =>
      if acc then do
        let b ← liftE (valuesEqual fuel left right)
        pure (!b)
      else pure false
  | "<" => if acc then liftE (valuesLessThan left right) else pure false
  | "<=" => if acc then liftE (valuesLessThanOrEqual fuel left right) else pure false
  | ">" =>
      if acc then do
        let b ← liftE (valuesLessThan left right)
        pure (!b)
      else pure false
  | ">=" =>
      if acc then do
        let b ← liftE (valuesLessThanOrEqual fuel left right)
        pure (!b)
      else pure false
  | "in" =>
      match right with
      | .vlist _ payload => if acc then liftE (valueInList fuel left payload) else pure false
      | .vmap _ payload => if acc then valueInMap fuel left payload else pure false
      | _ => throwE (.jsError "Unexpected operand")
  | _ => throwE (.jsError "Unexpected operator")

/-- The relational `reduce` over the operator list: step `i` compares
`exprs[i]` with `exprs[i + 1]`. -/
def relFold (fuel : Nat) (vals : List Value) : List String → Nat → Bool → EvalM Bool
  | [], _, acc => pure acc
  | op :: rest, i, acc => do
      let acc1 ← relStep fuel op (vals.getD i .jsUndefined) (vals.getD (i + 1) .jsUndefined) acc
      relFold fuel vals rest (i + 1) acc1

/-- The additive `reduce` of `evalAddExpr`, faithful to the source's
indexing slip: the accumulator starts at `0` and step `i` combines with
`exprs[i].value` — NOT `exprs[i + 1]` — so the LAST operand is never used
and the first is combined into the initial 0. -/
def addFold (vals : List Value) : List String → Nat → JSNum → Except EvalErr JSNum
  | [], _, acc => .ok acc
  | op :: rest, i, acc =>
      match vals.getD i .jsUndefined with
      | .jsUndefined => .error .jsTypeError
      | v =>
          match op with
          | "+" => addFold vals rest (i + 1) (JSNum.add acc (numField v))
          | "-" => addFold vals rest (i + 1) (JSNum.sub acc (numField v))
          | _ => .error (.jsError "Unexpected operator")

/-- The multiplicative `reduce` of `evalMultExpr` (same indexing slip as
`addFold`, accumulator starting at `1`). -/
def multFold (vals : List Value) : List String → Nat → JSNum → Except EvalErr JSNum
  | [], _, acc => .ok acc
  | op :: rest, i, acc =>
      match vals.getD i .jsUndefined with
      | .jsUndefined => .error .jsTypeError
      | v =>
          match op with
          | "*" => multFold vals rest (i + 1) (JSNum.mul acc (numField v))
          | "/" => multFold vals rest (i + 1) (JSNum.div acc (numField v))
          | "%" => multFold vals rest (i + 1) (JSNum.mod acc (numField v))
          | _ => .error (.jsError "Unexpected operator")

/-- The unary `reduce` over a run of numeric operators (only `-` is
accepted; `!` on a number is the thrown default case). -/
def unaryNumFold (acc : JSNum) : List String → Except EvalErr JSNum
  | [] => .ok acc
  | "-" :: rest => unaryNumFold (JSNum.neg acc) rest
  | _ :: _ => .error (.jsError "Unexpected operator")

/-- The unary `reduce` over a run of boolean operators (only `!`). -/
def unaryBoolFold (acc : Bool) : List String → Except EvalErr Bool
  | [] => .ok acc
  | "!" :: rest => unaryBoolFold (!acc) rest
  | _ :: _ => .error (.jsError "Unexpected operator")

/-- Source activation lookup `activation[ident.name]`. -/
def lookupAct (act : Activation) (name : String) : Option Value :=
  (act.find? (fun p => p.1 == name)).map (fun p => p.2)

/-- Source `evalIdent`: a falsy lookup result (a miss, i.e. `undefined`)
throws `Unexpected identifier`. -/
def evalIdent (name : String) (act : Activation) : EvalM Value :=
  match lookupAct act name with
  | some v => if jsTruthy v then pure v else throwE (.jsError "Unexpected identifier")
  | none => throwE (.jsError "Unexpected identifier")

/-- JavaScript array read `arr[n]` for a number index: the element for an
integral in-range index, `undefined` otherwise. -/
def jsArrayGet (l : List Value) : JSNum → Value
  | .num q =>
      if q.den == 1 && 0 ≤ q.num && q.num < l.length then l.getD q.num.toNat .jsUndefined
      else .jsUndefined
  | _ => .jsUndefined

/-- JavaScript property-key string of a primitive `.value` (string keys as
is, integral numbers in decimal; non-integral formatting is approximated,
unexercised by the theorems). -/
def jsNumToKey : JSNum → String
  | .num q => if q.den == 1 then toString q.num else "~noninteger~"
  | .posInf => "Infinity"
  | .negInf => "-Infinity"
  | .nan => "NaN"

/-- Property key used by map indexing `member.value[index.value]` (the
index is guarded to be a String/Int/Uint value). -/
def jsPropKey : Value → String
  | .vstring _ s => s
  | .vint _ n => jsNumToKey n
  | .vuint _ n => jsNumToKey n
  | _ => "undefined"

/-- JavaScript string coercion of a Value used as an object property key in
`Object.fromEntries`: every `*Value` class instance stringifies to
"[object Object]"; `undefined` stringifies to "undefined". -/
def jsObjKeyString : Value → String
  | .jsUndefined => "undefined"
  | _ => "[object Object]"

/-- Property assignment `m[k] = v`: replaces the value at an existing key
(keeping its position) or appends a new key. -/
def insertAssign (m : List (String × Value)) (k : String) (v : Value) : List (String × Value) :=
  if m.any (fun p => p.1 == k) then
    m.map (fun p => if p.1 == k then (k, v) else p)
  else m ++ [(k, v)]

/-- Source `Object.fromEntries` over evaluated key/value pairs: keys are
Value OBJECTS and stringify to "[object Object]", so all entries of a map
literal collapse onto that single key, the last one winning. -/
def jsFromEntries (pairs : List (Value × Value)) : List (String × Value) :=
  pairs.foldl (fun m kv => insertAssign m (jsObjKeyString kv.1) kv.2) []

/-- Source `builtinContains` (the registered builtin from `builtin.ts`).
After the two argument-kind dispatch errors, the source reads
`list.values` — but the live `ListValue` class stores its payload in
`value`, so `list.values` is `undefined` on EVERY argument and the final
`includes` call is a TypeError. -/
def builtinContains (_list value : Value) : EvalM Value :=
  if isListV value then throwE (.jsError "List contains is not implemented for nested lists")
  else if isMapV value then throwE (.jsError "List contains is not implemented for maps")
  else throwE .jsTypeError

/-- Source `builtin`: the BUILTINS table holds only `contains` (arity 2,
checked via `Function.length`); anything else throws `Unknown builtin`. -/
def builtin (method : String) (args : List Value) : EvalM Value :=
  if method == "contains" && args.length == 2 then
    builtinContains (args.getD 0 .jsUndefined) (args.getD 1 .jsUndefined)
  else throwE (.jsError ("Unknown builtin: " ++ method))

mutual

/-- Source `evalExpr`: dispatch on `instanceof TernaryExpr`. -/
def evalExpr : Nat → Expr → Activation → EvalM Value
  | 0, _, _ => throwE .fuelOut
  | fuel + 1, .ternary cond thenB elsB, act => evalTernaryExpr fuel cond thenB elsB act
  | fuel + 1, .orE o, act => evalOrExpr fuel o act

/-- Source `evalTernaryExpr`.  Faithfully to the source, the branch test is
`if (cond)` on the condition VALUE OBJECT — JavaScript truthiness — which
is true for every object, `BoolValue(false)` included; only a leaked
`undefined` is falsy. -/
def evalTernaryExpr : Nat → OrExpr → OrExpr → Expr → Activation → EvalM Value
  | 0, _, _, _, _ => throwE .fuelOut
  | fuel + 1, cond, thenB, elsB, act => do
      let c ← evalOrExpr fuel cond act
      if jsTruthy c then evalOrExpr fuel thenB act
      else evalExpr fuel elsB act

/-- Source `evalOrExpr`: evaluate every operand eagerly; a single operand
passes through unchecked; otherwise all must be Bool and the result is
their disjunction. -/
def evalOrExpr : Nat → OrExpr → Activation → EvalM Value
  | 0, _, _ => throwE .fuelOut
  | fuel + 1, .mk exprs, act => do
      let vals ← exprs.mapM (fun e => evalAndExpr fuel e act)
      match vals with
      | [v] => pure v
      | _ =>
          if !(vals.all isBoolV) then throwE (.jsError "Unexpected operands")
          else newBoolValue (vals.any boolField)

/-- Source `evalAndExpr` (conjunction analogue of `evalOrExpr`). -/
def evalAndExpr : Nat → AndExpr → Activation → EvalM Value
  | 0, _, _ => throwE .fuelOut
  | fuel + 1, .mk exprs, act => do
      let vals ← exprs.mapM (fun e => evalRelExpr fuel e act)
      match vals with
      | [v] => pure v
      | _ =>
          if !(vals.all isBoolV) then throwE (.jsError "Unexpected operands")
          else newBoolValue (vals.all boolField)

/-- Source `evalRelExpr`: evaluate the operands, pass a single operand
through, otherwise fold the operator list with `relStep` (note that the
source computes `>` as the NEGATION of `<`, and `>=` as the negation of
`<=`). -/
def evalRelExpr : Nat → RelExpr → Activation → EvalM Value
  | 0, _, _ => throwE .fuelOut
  | fuel + 1, .mk exprs ops, act => do
      let vals ← exprs.mapM (fun e => evalAddExpr fuel e act)
      if ops.isEmpty then pure (vals.headD .jsUndefined)
      else do
        let b ← relFold fuel vals ops 0 true
        newBoolValue b

/-- Source `evalAddExpr`: all-List concatenation, all-String/Bytes join,
or the all-numeric fold `addFold` with result kind Float if any operand is
Float, else Uint if all are Uint, else Int. -/
def evalAddExpr : Nat → AddExpr → Activation → EvalM Value
  | 0, _, _ => throwE .fuelOut
  | fuel + 1, .mk exprs ops, act => do
      let vals ← exprs.mapM (fun e => evalMultExpr fuel e act)
      if ops.isEmpty then pure (vals.headD .jsUndefined)
      else if vals.all isListV then
        if !(ops.all (fun op => op == "+")) then throwE (.jsError "Unexpected operators")
        else newListValue (vals.foldr (fun v acc => listPayload v ++ acc) [])
      else if vals.all isStringV then
        if !(ops.all (fun op => op == "+")) then throwE (.jsError "Unexpected operators")
        else newStringValue (String.join (vals.map strField))
      else if vals.all isByteV then
        if !(ops.all (fun op => op == "+")) then throwE (.jsError "Unexpected operators")
        else newByteValue (String.join (vals.map strField))
      else if vals.all isNumericV then do
        let value ← liftE (addFold vals ops 0 (.num (.ofInt 0)))
        if vals.any isFloatV then newFloatValue value
        else if vals.all isUintV then newUintValue value
        else newIntValue value
      else throwE (.jsError "Unexpected operands")

/-- Source `evalMultExpr`: numeric-only fold `multFold`, result kind as in
`evalAddExpr`. -/
def evalMultExpr : Nat → MultExpr → Activation → EvalM Value
  | 0, _, _ => throwE .fuelOut
  | fuel + 1, .mk exprs ops, act => do
      let vals ← exprs.mapM (fun e => evalUnaryExpr fuel e act)
      if ops.isEmpty then pure (vals.headD .jsUndefined)
      else if vals.all isNumericV then do
        let value ← liftE (multFold vals ops 0 (.num (.ofInt 1)))
        if vals.any isFloatV then newFloatValue value
        else if vals.all isUintV then newUintValue value
        else newIntValue value
      else throwE (.jsError "Unexpected operands")

/-- Source `evalUnaryExpr`: `-` repeats over Int/Uint (result re-tagged
Int either way) or Float; `!` repeats over Bool; other operand kinds under
a non-empty operator run are a thrown error. -/
def evalUnaryExpr : Nat → UnaryExpr → Activation → EvalM Value
  | 0, _, _ => throwE .fuelOut
  | fuel + 1, .mk member ops, act => do
      let m ← evalMember fuel member act
      if ops.isEmpty then pure m
      else if isIntV m || isUintV m then do
        let value ← liftE (unaryNumFold (numField m) ops)
        newIntValue value
      else if isFloatV m then do
        let value ← liftE (unaryNumFold (numField m) ops)
        newFloatValue value
      else if isBoolV m then do
        let value ← liftE (unaryBoolFold (boolField m) ops)
        newBoolValue value
      else throwE (.jsError "Unexpected operators")

/-- Source `evalMember`: dispatch on the member node class. -/
def evalMember : Nat → Member → Activation → EvalM Value
  | 0, _, _ => throwE .fuelOut
  | fuel + 1, .index member idx, act => evalIndexExpr fuel member idx act
  | fuel + 1, .funcCall member args, act => evalFuncCallExpr fuel member args act
  | fuel + 1, .primary p, act => evalPrimary fuel p act

/-- Source `evalIndexExpr`.  List indexing requires an Int/Uint index and
performs a PLAIN JavaScript array read: an out-of-range index yields
`undefined`, not an error.  Map indexing requires a String/Int/Uint index
and performs a plain property read: a missing key yields `undefined`. -/
def evalIndexExpr : Nat → Member → Expr → Activation → EvalM Value
  | 0, _, _, _ => throwE .fuelOut
  | fuel + 1, member, idx, act => do
      let m ← evalMember fuel member act
      let iv ← evalExpr fuel idx act
      match m with
      | .vlist _ payload =>
          if isIntV iv || isUintV iv then pure (jsArrayGet payload (numField iv))
          else throwE (.jsError "Unexpected index")
      | .vmap _ payload =>
          if isStringV iv || isIntV iv || isUintV iv then pure (mapGet payload (jsPropKey iv))
          else throwE (.jsError "Unexpected index")
      | _ => throwE (.jsError "Unexpected member")

/-- Source `evalFuncCallExpr`: the callee member must syntactically be an
identifier; arguments are evaluated eagerly left-to-right and dispatched to
the builtin table. -/
def evalFuncCallExpr : Nat → Member → List Expr → Activation → EvalM Value
  | 0, _, _, _ => throwE .fuelOut
  | fuel + 1, member, argExprs, act =>
      match member with
      | .primary (.ident name) => do
          let args ← argExprs.mapM (fun e => evalExpr fuel e act)
          builtin name args
      | _ => throwE (.jsError "Unexpected member")

/-- Source `evalPrimary`: literals construct fresh values, identifiers go
through the activation, list/map literals evaluate their parts eagerly in
source order, and a nested expression falls through to `evalExpr`. -/
def evalPrimary : Nat → Primary → Activation → EvalM Value
  | 0, _, _ => throwE .fuelOut
  | _ + 1, .intLit v, _ => newIntValue v
  | _ + 1, .uintLit v, _ => newUintValue v
  | _ + 1, .floatLit v, _ => newFloatValue v
  | _ + 1, .stringLit v, _ => newStringValue v
  | _ + 1, .byteLit v, _ => newByteValue v
  | _ + 1, .boolLit v, _ => newBoolValue v
  | _ + 1, .nullLit, _ => newNullValue
  | _ + 1, .ident name, act => evalIdent name act
  | fuel + 1, .listE exprs, act => do
      let vs ← exprs.mapM (fun e => evalExpr fuel e act)
      newListValue vs
  | fuel + 1, .mapE entries, act => do
      let pairs ← entries.mapM (fun kv => do
        let k ← evalExpr fuel kv.1 act
        let v ← evalExpr fuel kv.2 act
        pure (k, v))
      newMapValue (jsFromEntries pairs)
  | fuel + 1, .expr e, act => evalExpr fuel e act

end

/-- Source `interpreter`: evaluate the tree against the activation. -/
def interpreter (fuel : Nat) (e : Expr) (act : Activation) : EvalM Value :=
  evalExpr fuel e act

/-- Overall outcome of `interpreter(parser(lexer(text)), activation)`:
the produced value (with the final allocation counter), or the stage that
failed. -/
inductive RunOut where
  | value (v : Value) (counter : Nat)
  | lexFail (c : Char)
  | parseFail
  | evalFail (e : EvalErr)
  | lexHang
  | fuelOut
deriving Repr

/-- The full pipeline `interpreter(parser(lexer(text)), activation)`. -/
def run (fuel : Nat) (input : String) (act : Activation) : RunOut :=
  match lexer fuel input.toList with
  | .unexpectedChar c => .lexFail c
  | .hang => .lexHang
  | .fuelOut => .fuelOut
  | .toks ts =>
      match parser fuel ts with
      | .fail => .parseFail
      | .fuelOut => .fuelOut
      | .ok e =>
          match (interpreter fuel e act).run 0 with
          | .error er => .evalFail er
          | .ok (v, n) => .value v n

/-! Concrete fixtures for the theorems below. -/

/-- The parser's single-operand chain around one primary (what `parser`
produces for a lone literal or identifier). -/
def primaryExpr (p : Primary) : Expr :=
  .orE (.mk [.mk [.mk [.mk [.mk [.mk (.primary p) []] []] []] []]])

/-- Additive node holding one primary operand. -/
def addOfPrimary (p : Primary) : AddExpr :=
  .mk [.mk [.mk (.primary p) []] []] []

/-- The tree the grammar prescribes for `[1,2] == [1,2]` (built directly,
since the live parser diverges on list literals). -/
def listEqSameTree : Expr :=
  .orE (.mk [.mk [.mk
    [addOfPrimary (.listE [primaryExpr (.intLit (.num (.ofInt 1))),
                           primaryExpr (.intLit (.num (.ofInt 2)))]),
     addOfPrimary (.listE [primaryExpr (.intLit (.num (.ofInt 1))),
                           primaryExpr (.intLit (.num (.ofInt 2)))])]
    ["=="]]])

/-- The tree the grammar prescribes for `[1,2] == [2,1]`. -/
def listEqSwapTree : Expr :=
  .orE (.mk [.mk [.mk
    [addOfPrimary (.listE [primaryExpr (.intLit (.num (.ofInt 1))),
                           primaryExpr (.intLit (.num (.ofInt 2)))]),
     addOfPrimary (.listE [primaryExpr (.intLit (.num (.ofInt 2))),
                           primaryExpr (.intLit (.num (.ofInt 1)))])]
    ["=="]]])

/-- The member node the grammar prescribes for `[1][5]`. -/
def indexOutOfRangeMember : Member :=
  .index (.primary (.listE [primaryExpr (.intLit (.num (.ofInt 1)))]))
    (primaryExpr (.intLit (.num (.ofInt 5))))

/-- The member node the grammar prescribes for `[7][0]` (in range). -/
def indexInRangeMember : Member :=
  .index (.primary (.listE [primaryExpr (.intLit (.num (.ofInt 7)))]))
    (primaryExpr (.intLit (.num (.ofInt 0))))

/-- The token sequence of `xs[0]`. -/
def xsIndexTokens : List Token :=
  [.ident "xs", .control "[", .intLit (.num (.ofInt 0)), .control "]"]

/-- The token sequence of `f(1)`. -/
def fCallTokens : List Token :=
  [.ident "f", .control "(", .intLit (.num (.ofInt 1)), .control ")"]

/-- Sanity check of the embedding: the repository's own `testInterpreter`
expression, with the same activation, produces `BoolValue(false)` exactly
as the source run does. -/
theorem interpreter_matches_repo_smoke_test :
    run 200 "!!(myNum == 123 && (myStr == \"hello\" || myBool == true) ? myNum + 1 == 2 : -myNum - 1 == 10)"
      [("myNum", .vint 1000 (.num (.ofInt 13))), ("myStr", .vstring 1001 "hello"),
       ("myBool", .vbool 1002 true)] = .value (.vbool 12 false) 13 := by rfl

/-- C1.  The claim says the ternary dispatches on the Bool value of its
condition, evaluating the else-branch when the condition is Bool(false).
The code tests `if (cond)` on the condition VALUE OBJECT, and every object
— `BoolValue(false)` included — is truthy, so `false ? 1 : 2` evaluates the
then-branch and returns Int(1).  (The claim's own example
`true ? 1 : (1/0)` does return Int(1) without error, second conjunct.) -/
theorem c1_ternary_tests_object_truthiness :
    run 100 "false ? 1 : 2" [] = .value (.vint 1 (.num (.ofInt 1))) 2 ∧
    run 100 "true ? 1 : (1/0)" [] = .value (.vint 1 (.num (.ofInt 1))) 2 :=
  ⟨by rfl, by rfl⟩

/-- C2.  The claim says additive chains fold left-to-right with numeric
promotion, so "1 + 2" is Int(3), "1u + 2u" is Uint(3), "1 + 2.0" is
Float(3.0).  The code's reduce starts its accumulator at 0 and combines
with `exprs[i]` instead of `exprs[i + 1]`, dropping the last operand:
"1 + 2" evaluates to Int(1).  "1u + 2u" and "1 + 2.0" also evaluate to
Int(1): the lexer can produce no uint token (`lexUintLit` tests the
unsliced input for the suffix) and registers no float recognizer, and the
parser then drops the trailing unconsumed tokens. -/
theorem c2_addition_drops_last_operand :
    run 100 "1 + 2" [] = .value (.vint 2 (.num (.ofInt 1))) 3 ∧
    run 100 "1u + 2u" [] = .value (.vint 0 (.num (.ofInt 1))) 1 ∧
    run 100 "1 + 2.0" [] = .value (.vint 2 (.num (.ofInt 1))) 3 :=
  ⟨by rfl, by rfl, by rfl⟩

/-- C3.  The claim says the member level attaches trailing `[expr]` and
`(args)` suffixes to the preceding primary.  In the code, `parseMember`
returns IMMEDIATELY when `parsePrimary` succeeds, so no suffix is ever
attached: the tokens of `xs[0]` parse to the bare identifier `xs` with
`[ 0 ]` left unconsumed (and then discarded by `parser`), and the tokens of
`f(1)` likewise parse to the bare identifier `f`; no IndexExpr or
FuncCallExpr node is produced. -/
theorem c3_member_suffixes_never_attached :
    parseMember 100 xsIndexTokens =
      .found (.primary (.ident "xs")) [.control "[", .intLit (.num (.ofInt 0)), .control "]"] ∧
    parser 100 xsIndexTokens = .ok (primaryExpr (.ident "xs")) ∧
    parser 100 fCallTokens = .ok (primaryExpr (.ident "f")) :=
  ⟨by rfl, by rfl, by rfl⟩

/-- C4 counterexample.  The claim says trailing unconsumed tokens make
`parser` fail with a ParseError; on the token sequence of `1 2` the parser
returns the tree for `1` with no error, the second integer token silently
discarded. -/
theorem c4_trailing_tokens_accepted :
    parser 100 [.intLit (.num (.ofInt 1)), .intLit (.num (.ofInt 2))] =
      .ok (primaryExpr (.intLit (.num (.ofInt 1)))) := by rfl

/-- C4 amended.  `parser` returns the tree of whatever prefix `parseExpr`
consumes and discards any remaining tokens; it fails only when no leading
expression parses at all (the file's own NOTE records that error handling
was skipped). -/
theorem c4_parser_ignores_remainder (fuel : Nat) (ts : List Token) (e : Expr)
    (rest : List Token) (h : parseExpr fuel ts = .found e rest) :
    parser fuel ts = .ok e := by
  unfold parser
  rw [h]

/-- C4 witness: a concrete run of `c4_parser_ignores_remainder` on tokens
with a nonempty remainder. -/
theorem c4_parser_ignores_remainder_witness :
    parseExpr 100 [.boolLit true, .ident "leftover"] =
      .found (primaryExpr (.boolLit true)) [.ident "leftover"] ∧
    parser 100 [.boolLit true, .ident "leftover"] = .ok (primaryExpr (.boolLit true)) :=
  ⟨by rfl, c4_parser_ignores_remainder 100 _ _ _ (by rfl)⟩

/-- C5.  The claim says `==` on two Lists is recursive structural equality,
so `[1,2] == [1,2]` is Bool(true) and `[1,2] == [2,1]` is Bool(false).
In the code, `listValuesEqual` compares non-container elements with `===`
— object REFERENCE equality — and the two list literals evaluate to
distinct IntValue objects, so BOTH comparisons yield Bool(false) (the
first contradicting the claim).  The source text itself never even
reaches the evaluator: `parsePrimary` cannot parse a list literal
(`parseExprList` demands a leading comma), upon which `parseMember`
re-enters itself on the same tokens and never terminates (fuel
exhaustion at every fuel; here at 100). -/
theorem c5_list_equality_is_reference_equality :
    (interpreter 100 listEqSameTree []).run 0 = .ok (.vbool 6 false, 7) ∧
    (interpreter 100 listEqSwapTree []).run 0 = .ok (.vbool 6 false, 7) ∧
    run 100 "[1,2] == [1,2]" [] = .fuelOut :=
  ⟨by rfl, by rfl, by rfl⟩

/-- C6.  The claim says division (or modulo) by numeric zero fails with a
dedicated DivisionByZero error.  No such error exists in the code:
`evalMultExpr` folds with plain JavaScript `/` (and the same indexing slip
as addition, accumulator starting at 1 and combining `exprs[i]`), so
`1 / 0` computes 1/1 and returns Int(1), and a zero divisor in a non-final
position propagates Infinity as a value: `1 / 0 / 5` returns
Int(Infinity).  Neither run produces an error. -/
theorem c6_division_by_zero_never_errors :
    run 100 "1 / 0" [] = .value (.vint 2 (.num (.ofInt 1))) 3 ∧
    run 100 "1 / 0 / 5" [] = .value (.vint 3 .posInf) 4 :=
  ⟨by rfl, by rfl⟩

/-- C7.  The claim says an out-of-range list index raises IndexOutOfRange
(and a missing map key KeyNotFound).  The code performs a raw JavaScript
array read `member.value[index.value]`, so indexing `[1]` with 5 yields
the VALUE `undefined` — no error of any kind (first conjunct; the second
shows an in-range read returning the element).  No IndexOutOfRange or
KeyNotFound error exists in the code.  The claim's pipeline example
`[1][5]` additionally never reaches the evaluator: the parser diverges on
list literals (fuel exhaustion, third conjunct). -/
theorem c7_index_out_of_range_yields_undefined :
    (evalMember 100 indexOutOfRangeMember []).run 0 = .ok (.jsUndefined, 3) ∧
    (evalMember 100 indexInRangeMember []).run 0 = .ok (.vint 0 (.num (.ofInt 7)), 3) ∧
    run 100 "[1][5]" [] = .fuelOut :=
  ⟨by rfl, by rfl, by rfl⟩

/-- C8.  The claim says each relational operator returns the corresponding
numeric comparison, so for equal operands both `a > b` and `a < b` are
Bool(false).  The code computes `>` as `!valuesLessThan(l, r)` and `>=` as
`!valuesLessThanOrEqual(l, r)`, so `1 > 1` evaluates to Bool(true)
(`1 < 1` is Bool(false) as expected, and `1 >= 1` to Bool(false), both
shown for contrast). -/
theorem c8_greater_is_negated_less :
    run 100 "1 > 1" [] = .value (.vbool 2 true) 3 ∧
    run 100 "1 < 1" [] = .value (.vbool 2 false) 3 ∧
    run 100 "1 >= 1" [] = .value (.vbool 2 false) 3 :=
  ⟨by rfl, by rfl, by rfl⟩

/-- C9.  The claim says every two-character operator lexes as one token
because longer patterns are tried first.  The OPERATORS list places "<"
BEFORE "<=", and `lexOperator` returns the first prefix match, so "<="
lexes as "<" and the orphaned "=" matches no recognizer: lexing `1 <= 2`
throws `Unexpected character: =` (first two conjuncts).  The other
two-character operators are listed before their one-character rivals, e.g.
`1 >= 2` lexes correctly (third conjunct) — "<=" is the shadowed one. -/
theorem c9_less_equal_shadowed_by_less :
    run 100 "1 <= 2" [] = .lexFail '=' ∧
    lexOperator "<= 2".toList = .tok (.operator "<") ['=', ' ', '2'] ∧
    lexer 100 "1 >= 2".toList =
      .toks [.intLit (.num (.ofInt 1)), .operator ">=", .intLit (.num (.ofInt 2))] :=
  ⟨by rfl, by rfl, by rfl⟩

/-- C10.  "int" and "format" are single well-formed identifiers under the
lexer's own IDENT rule (`lexIdent` consumes each whole, first and third
conjuncts), yet the lexer does not emit a single identifier token for
either: the operator recognizer matches the bare prefix "in" of "int" and
the reserved-word recognizer the bare prefix "for" of "format", without
checking whether the next character extends an identifier, and the
remainders are lexed separately. -/
theorem c10_keyword_prefix_splits_identifier :
    lexIdent "int".toList = .tok (.ident "int") [] ∧
    lexer 100 "int".toList = .toks [.operator "in", .ident "t"] ∧
    lexIdent "format".toList = .tok (.ident "format") [] ∧
    lexer 100 "format".toList = .toks [.reserved "for", .ident "mat"] :=
  ⟨by rfl, by rfl, by rfl, by rfl⟩

end Cel
